import Mathlib

/-!
Verification of the deliberation engine of the wizengamot repository.

Text is modelled as `List Char` (named `Str` below); Python strings are
embedded character by character.  Pure functions of the source
(`parse_zettels`, the anonymizer label assignment, prompt truncation, the
dict built by `query_models_parallel`, the control flow of
`generate_zettels_deliberation` and the streaming `event_generator`) are
translated directly from `src/backend/synthesizer.py`,
`src/backend/openrouter.py` and `src/backend/main.py`.  Network and
filesystem effects (the OpenRouter HTTP call, prompt-template files) are
modelled as explicit oracle parameters.  The module `backend/council.py`
(`parse_ranking_from_text`, `calculate_aggregate_rankings`) is not part of
the published sources; those two functions are modelled from the spec and
are marked as such in their doc comments.
-/

abbrev Str := List Char

/-- The six ASCII whitespace characters stripped by Python `str.strip()`. -/
def isPySpace (c : Char) : Bool :=
  c = ' ' || c = '\t' || c = '\n' || c = '\r' || c = '\x0b' || c = '\x0c'

/-- Python `s.strip()`: drop whitespace from both ends. -/
def pyStrip (s : Str) : Str :=
  ((s.dropWhile isPySpace).reverse.dropWhile isPySpace).reverse

/-- Python `s.split('\n')`: split at every newline, keeping empty pieces. -/
def pyLines (s : Str) : List Str := s.splitOn '\n'

/-- Python `s.split()` with no argument: split on whitespace runs, no empty pieces. -/
def pyWords (s : Str) : List Str := (List.splitOnP isPySpace s).filter (· ≠ [])

/-- Python `sep.join(parts)`. -/
def pyJoin (sep : Str) : List Str → Str
  | [] => []
  | [p] => p
  | p :: ps => p ++ sep ++ pyJoin sep ps

/-- The lookahead `(?=# [^#\n])` of the section-splitting regular expression
in `parse_zettels`: the text begins with `"# "` followed by a character that
is neither `'#'` nor a newline. -/
def sectionStart : Str → Bool
  | '#' :: ' ' :: c :: _ => c ≠ '#' && c ≠ '\n'
  | _ => false

/-- Worker for `re.split(r'\n(?=# [^#\n])', raw_text)`: a newline whose
lookahead matches separates two sections and is itself dropped. -/
def splitSectionsAux : Str → Str → List Str
  | acc, [] => [acc.reverse]
  | acc, '\n' :: rest =>
      if sectionStart rest then acc.reverse :: splitSectionsAux [] rest
      else splitSectionsAux ('\n' :: acc) rest
  | acc, c :: rest => splitSectionsAux (c :: acc) rest

def pySplitSections (s : Str) : List Str := splitSectionsAux [] s

/-- One parsed Zettel note (`parse_zettels` output element). -/
structure Note where
  id : Str
  title : Str
  tags : List Str
  body : Str
deriving DecidableEq, Repr

/-- `word.startswith('#') and len(word) > 1` from the tags-line check. -/
def isTagWord (w : Str) : Bool := w.head? = some '#' && w.length > 1

/-- The tags-line loop of `parse_zettels`: walk `lines[1:]` (1-based index),
skip blank lines, and at the first non-blank line either take its words as
tags (body starts on the next line) or start the body there.  If every line
is blank the defaults `tags = []`, `body_start = 1` stand. -/
def findTags : Nat → List Str → (List Str × Nat)
  | _, [] => ([], 1)
  | i, line :: rest =>
      let l := pyStrip line
      if l = [] then findTags (i + 1) rest
      else
        let words := pyWords l
        if words.all isTagWord then (words, i + 1) else ([], i)

/-- The body loop of `parse_zettels`: strip each line, stop at a stray title
line, keep the non-blank lines. -/
def collectBody : List Str → List Str
  | [] => []
  | line :: rest =>
      let l := pyStrip line
      if ("# ".data.isPrefixOf l) && !("##".data.isPrefixOf l) then []
      else if l = [] then collectBody rest
      else l :: collectBody rest

/-- `f"note-{n}"`. -/
def noteId (n : Nat) : Str := "note-".data ++ (Nat.repr n).data

/-- The per-section body of the `parse_zettels` loop: strip the section,
require a `"# "` title line with non-empty title, find the tags line, join
the body lines with single spaces, and keep the note only when both title
and body are non-empty. -/
def parseSectionCore (sec0 : Str) : Option (Str × List Str × Str) :=
  let sec := pyStrip sec0
  if sec = [] then none
  else if !("# ".data.isPrefixOf sec) then none
  else
    let lines := pyLines sec
    let title := pyStrip ((lines.headD []).drop 2)
    if title = [] then none
    else
      let p := findTags 1 (lines.drop 1)
      let body := pyJoin " ".data (collectBody (lines.drop p.2))
      if body = [] then none
      else some (title, p.1, body)

/-- The loop body of `parse_zettels`: a section that parses is appended with
the id `note-(len + 1)`; one that does not leaves the accumulator alone. -/
def parseFold (notes : List Note) (sec : Str) : List Note :=
  match parseSectionCore sec with
  | none => notes
  | some tb => notes ++ [⟨noteId (notes.length + 1), tb.1, tb.2.1, tb.2.2⟩]

/-- `parse_zettels` from `src/backend/synthesizer.py`: split the raw text
into sections at title markers and parse each section, numbering the kept
notes `note-1`, `note-2`, ... in output order. -/
def parse_zettels (raw_text : Str) : List Note :=
  (pySplitSections raw_text).foldl parseFold []

example : parse_zettels "# T\n\n#tag1 #tag2\n\nHello body.".data =
    [⟨"note-1".data, "T".data, ["#tag1".data, "#tag2".data], "Hello body.".data⟩] := by
  decide

example : parse_zettels "no notes here".data = [] := by decide

example :
    parse_zettels "# A\n\nbody a\n# B\n\n#t\n\nbody b".data =
      [⟨"note-1".data, "A".data, [], "body a".data⟩,
       ⟨"note-2".data, "B".data, ["#t".data], "body b".data⟩] := by
  decide

/-! ## `src/backend/openrouter.py` -/

/-- The `message` object `data['choices'][0]['message']` of the upstream
chat-completion payload. -/
structure MessageJson where
  content : Option Str
  reasoningDetails : Option Str
deriving DecidableEq

/-- The JSON body of a 2xx upstream response, as far as `query_model`
inspects it: `choicesMessage` is `some` exactly when
`data['choices'][0]['message']` is present (otherwise the subscript raises
inside the `try` block), and `id` is `data.get('id')`. -/
structure PayloadJson where
  choicesMessage : Option MessageJson
  id : Option Str
deriving DecidableEq

/-- Outcome of the single `httpx` POST inside `query_model`.  A timeout or
transport error raises before any response exists; otherwise there is a
status code and a body (`none` when `response.json()` cannot parse it). -/
inductive Upstream where
  | timeout
  | transportError
  | httpResponse (status : Nat) (body : Option PayloadJson)
deriving DecidableEq

/-- The dict returned by a successful `query_model` call. -/
structure QueryResult where
  content : Option Str
  reasoning_details : Option Str
  generation_id : Option Str
deriving DecidableEq

/-- `query_model` from `src/backend/openrouter.py`: no API key (Python falsy,
i.e. empty) returns `None`; any exception inside the `try` block — timeout,
transport error, the `raise_for_status` on a non-2xx status, an unparseable
body, a missing `choices[0].message` — is caught and returns `None`; a
well-formed 2xx response yields the content / reasoning / generation-id
dict.  The HTTP call itself is the explicit `u : Upstream` argument. -/
def query_model (apiKey : Str) (u : Upstream) : Option QueryResult :=
  if apiKey = [] then none
  else
    match u with
    | .timeout => none
    | .transportError => none
    | .httpResponse status body =>
      if status < 200 ∨ 300 ≤ status then none
      else
        match body with
        | none => none
        | some p =>
          match p.choicesMessage with
          | none => none
          | some m => some ⟨m.content, m.reasoningDetails, p.id⟩

/-! ### Python dict semantics

`query_models_parallel` builds `{model: response for model, response in
zip(models, responses)}`.  A Python dict keeps insertion order; writing an
existing key keeps its original position and replaces the value. -/

def pyDictInsert (d : List (Str × α)) (k : Str) (v : α) : List (Str × α) :=
  if d.any (fun p => p.1 = k) then d.map (fun p => if p.1 = k then (k, v) else p)
  else d ++ [(k, v)]

def pyDictOfList (ps : List (Str × α)) : List (Str × α) :=
  ps.foldl (fun d p => pyDictInsert d p.1 p.2) []

/-- `query_models_parallel` from `src/backend/openrouter.py`: one
`query_model` task per listed model on the shared message list, gathered and
zipped back into a dict.  The per-model call is abstracted by the oracle
`q` (its network effects are not a function of the arguments alone; the
oracle fixes one outcome per model for this run).  The response type is a
parameter because the Python function never inspects the response values. -/
def query_models_parallel {ρ : Type} (q : Str → List (Str × Str) → Option ρ)
    (models : List Str) (messages : List (Str × Str)) : List (Str × Option ρ) :=
  pyDictOfList (models.map (fun m => (m, q m messages)))

/-! ## `backend/council.py` — not in the published sources

`synthesizer.py` and `main.py` import `parse_ranking_from_text` and
`calculate_aggregate_rankings` from `backend.council`, which is absent from
the sources.  Both are modelled from the spec (sections 4.3 and 4.4). -/

/-- ASCII lowercasing, for the case-insensitive marker and keyword search. -/
def toLowerCh (c : Char) : Char :=
  if 'A' ≤ c && c ≤ 'Z' then Char.ofNat (c.toNat + 32) else c

def rankingMarker : Str := "final ranking:".data

/-- The text following the last case-insensitive occurrence of
`FINAL RANKING:`, or `none` when the marker is absent. -/
def afterLastMarker : Str → Option Str
  | [] => none
  | c :: rest =>
    match afterLastMarker rest with
    | some r => some r
    | none =>
      if ((c :: rest).take 14).map toLowerCh = rankingMarker
      then some ((c :: rest).drop 14) else none

def isDigitCh (c : Char) : Bool := '0' ≤ c && c ≤ '9'

/-- Modelled from the spec: a ranking line is `<number>. Response <label>` —
digits, a period, the word `Response` (any case, surrounding whitespace
tolerated), then the label token and nothing else on the (stripped) line.
The returned label is the full `Response X` token, the form under which
labels key `label_to_model`. -/
def matchRankLine (line : Str) : Option Str :=
  let l := pyStrip line
  let ds := l.takeWhile isDigitCh
  let r1 := l.dropWhile isDigitCh
  if ds = [] then none
  else
    match r1 with
    | '.' :: r2 =>
      let r3 := r2.dropWhile (· = ' ')
      if (r3.take 8).map toLowerCh = "response".data then
        let r4 := (r3.drop 8).dropWhile (· = ' ')
        if r4 = [] then none
        else if r4.all (fun c => !(isPySpace c)) then some ("Response ".data ++ r4)
        else none
      else none
    | _ => none

/-- Keep the first occurrence of each element, in order; `seen` holds the
elements already emitted. -/
def dedupFirstAux {α : Type} [DecidableEq α] : List α → List α → List α
  | _, [] => []
  | seen, a :: as =>
      if a ∈ seen then dedupFirstAux seen as
      else a :: dedupFirstAux (a :: seen) as

/-- Keep the first occurrence of each element, in order. -/
def dedupFirst {α : Type} [DecidableEq α] (l : List α) : List α :=
  dedupFirstAux [] l

/-- Modelled from the spec: `parse_ranking_from_text` of `backend/council.py`
is not in the published sources.  Spec section 4.3: locate the last
case-insensitive `FINAL RANKING:`; from the text after it extract, in order
of appearance, the lines matching `<number>. Response <label>`; duplicate
labels keep only their first occurrence; a missing marker or no matching
line yields the empty sequence. -/
def parse_ranking_from_text (text : Str) : List Str :=
  match afterLastMarker text with
  | none => []
  | some rest => dedupFirst ((pyLines rest).filterMap matchRankLine)

/-- One stage-2 record of the deliberation result. -/
structure Stage2Result where
  model : Str
  ranking : Str
  parsed_ranking : List Str
deriving DecidableEq, Repr

/-- One aggregate-ranking entry: de-anonymized model, mean received
position, number of raters that ranked it. -/
structure AggEntry where
  model : Str
  averagePosition : ℚ
  votes : Nat
deriving DecidableEq, Repr

/-- 1-based position of `x` in `l`, if present. -/
def pos1 {α : Type} [DecidableEq α] (x : α) : List α → Option Nat
  | [] => none
  | a :: as => if a = x then some 1 else (pos1 x as).map (· + 1)

/-- The 1-based positions a label received, one per rater whose parsed
ranking mentions it (raters with an empty or non-mentioning parsed ranking
contribute nothing). -/
def positionsOf (stage2 : List Stage2Result) (label : Str) : List Nat :=
  stage2.filterMap (fun r => pos1 label r.parsed_ranking)

/-- Pre-sort aggregate entries, paired with their stage-1 index: one entry
per `label_to_model` pair whose label was ranked by at least one rater;
never-ranked models are omitted. -/
def rawEntriesAux (stage2 : List Stage2Result) :
    Nat → List (Str × Str) → List (AggEntry × Nat)
  | _, [] => []
  | i, lm :: rest =>
    let ps := positionsOf stage2 lm.1
    if ps = [] then rawEntriesAux stage2 (i + 1) rest
    else (⟨lm.2, (ps.map (fun n => (n : ℚ))).sum / (ps.length : ℚ), ps.length⟩, i)
           :: rawEntriesAux stage2 (i + 1) rest

/-- Sort key: average position ascending, then votes descending, then
stage-1 index ascending. -/
def aggKey (x : AggEntry × Nat) : Lex (ℚ × Lex ((OrderDual ℕ) × ℕ)) :=
  toLex (x.1.averagePosition, toLex (OrderDual.toDual x.1.votes, x.2))

def aggLe (a b : AggEntry × Nat) : Prop := aggKey a ≤ aggKey b

instance : DecidableRel aggLe := fun a b => by
  unfold aggLe
  exact inferInstance

instance : IsTotal (AggEntry × Nat) aggLe := ⟨fun a b => le_total (aggKey a) (aggKey b)⟩

instance : IsTrans (AggEntry × Nat) aggLe :=
  ⟨fun _ _ _ hab hbc => le_trans hab hbc⟩

def aggSortedWithIdx (stage2 : List Stage2Result)
    (label_to_model : List (Str × Str)) : List (AggEntry × Nat) :=
  List.insertionSort aggLe (rawEntriesAux stage2 0 label_to_model)

/-- Modelled from the spec: `calculate_aggregate_rankings` of
`backend/council.py` is not in the published sources.  Spec section 4.4:
each rater contributes the 1-based positions of its parsed ranking; per
de-anonymized model the mean position and the vote count are recorded, with
never-ranked models omitted; entries are sorted ascending by average
position with ties broken by votes descending and then by original stage-1
order. -/
def calculate_aggregate_rankings (stage2 : List Stage2Result)
    (label_to_model : List (Str × Str)) : List AggEntry :=
  (aggSortedWithIdx stage2 label_to_model).map Prod.fst

example :
    parse_ranking_from_text "blah\nFINAL RANKING:\n1. Response B\n2. Response A\n".data =
      ["Response B".data, "Response A".data] := by decide

example : parse_ranking_from_text "no marker at all".data = [] := by decide

/-! ## `generate_zettels_deliberation` from `src/backend/synthesizer.py` -/

/-- A successful per-model response as the deliberation consumes it:
`response.get("content", "")` and `response.get("generation_id")`.  (An
upstream JSON-null content, which would crash `parse_zettels` before any
result is produced, is outside every claim and not modelled.) -/
structure ModelResp where
  content : Str
  genId : Option Str
deriving DecidableEq, Repr

/-- One stage-1 record of the deliberation result. -/
structure Stage1Result where
  model : Str
  notes : List Note
  raw : Str
deriving DecidableEq, Repr

/-- The dict returned by `generate_zettels_deliberation` (the nested
`deliberation` dict is flattened into the four stage fields). -/
structure DeliberationOut where
  notes : List Note
  stage1 : List Stage1Result
  stage2 : List Stage2Result
  label_to_model : List (Str × Str)
  aggregate_rankings : List AggEntry
  stage3_raw : Str
  models : List Str
  chairman_model : Str
  generation_ids : List Str
deriving DecidableEq, Repr

def errNoRespond : Str := "Error: Model failed to respond".data

def errAllFailed : Str := "Error: All models failed to generate notes".data

def errChairman : Str := "Error: Chairman model failed to synthesize final notes".data

/-- The stage-1 result list: a parsed-notes record per responding model, an
error placeholder per failed model, in dict order. -/
def stage1ResultsOf (responses : List (Str × Option ModelResp)) : List Stage1Result :=
  responses.map (fun p =>
    match p.2 with
    | some r => ⟨p.1, parse_zettels r.content, r.content⟩
    | none => ⟨p.1, [], errNoRespond⟩)

/-- The stage-2 result list: ranking text and parsed ranking per responding
model, an error placeholder and empty parsed ranking per failed model. -/
def stage2ResultsOf (responses : List (Str × Option ModelResp)) : List Stage2Result :=
  responses.map (fun p =>
    match p.2 with
    | some r => ⟨p.1, r.content, parse_ranking_from_text r.content⟩
    | none => ⟨p.1, errNoRespond, []⟩)

/-- Generation ids appended while walking a stage's responses: kept only
when present and non-empty (Python truthiness of `gen_id`). -/
def genIdsOf (responses : List (Str × Option ModelResp)) : List Str :=
  responses.filterMap (fun p =>
    match p.2 with
    | some r =>
      match r.genId with
      | some g => if g = [] then none else some g
      | none => none
    | none => none)

/-- `f"Generate Zettelkasten notes from the following content:..."` with the
optional user-guidance suffix. -/
def userMessageOf (content : Str) (user_comment : Option Str) : Str :=
  "Generate Zettelkasten notes from the following content:\n\n".data ++ content ++
    (match user_comment with
     | some c => "\n\n---\nUser guidance: ".data ++ c
     | none => [])

/-- The stage-1 message list: system prompt plus the generated user message. -/
def stage1Messages (content system_prompt : Str) (uc : Option Str) : List (Str × Str) :=
  [("system".data, system_prompt), ("user".data, userMessageOf content uc)]

/-- `content[:10000] + "..." if len(content) > 10000 else content`. -/
def truncatedContentOf (content : Str) : Str :=
  if content.length > 10000 then content.take 10000 ++ "...".data else content

/-- `labels = [chr(65 + i) for i in range(len(stage1_results))]`. -/
def labelChars (n : Nat) : List Char := (List.range n).map (fun i => Char.ofNat (65 + i))

/-- `f"Response {label}"`. -/
def labelName (c : Char) : Str := "Response ".data ++ [c]

/-- The dict comprehension pairing each label with its stage-1 model. -/
def labelToModelOf (results : List Stage1Result) : List (Str × Str) :=
  pyDictOfList (((labelChars results.length).zip results).map
    (fun p => (labelName p.1, p.2.model)))

/-- `result['raw'] if result['raw'] else "(No notes generated)"`. -/
def emptyFallback (raw : Str) : Str :=
  if raw = [] then "(No notes generated)".data else raw

/-- The anonymized `Response X:` block list joined for the ranking prompt. -/
def responsesTextOf (results : List Stage1Result) : Str :=
  pyJoin "\n\n---\n\n".data
    (((labelChars results.length).zip results).map
      (fun p => labelName p.1 ++ ":\n".data ++ emptyFallback p.2.raw))

/-- A stage-2 or stage-3 prompt template as read from the prompt file or the
built-in default: literal runs interleaved with the named placeholders.  The
template text itself comes from disk and is a parameter of the embedding. -/
inductive RPiece where
  | lit (s : Str)
  | sourceContent
  | responsesText
deriving DecidableEq, Repr

def formatRanking (tmpl : List RPiece) (src resp : Str) : Str :=
  (tmpl.map (fun p =>
    match p with
    | .lit s => s
    | .sourceContent => src
    | .responsesText => resp)).flatten

inductive CPiece where
  | lit (s : Str)
  | sourceContent
  | stage1Text
  | stage2Text
deriving DecidableEq, Repr

def formatChairman (tmpl : List CPiece) (src s1 s2 : Str) : Str :=
  (tmpl.map (fun p =>
    match p with
    | .lit s => s
    | .sourceContent => src
    | .stage1Text => s1
    | .stage2Text => s2)).flatten

/-- Lines 393–401 of `synthesizer.py`: the stage-2 ranking prompt, formatted
from the truncated source content and the anonymized responses text. -/
def rankingPromptOf (tmpl : List RPiece) (content : Str)
    (results : List Stage1Result) : Str :=
  formatRanking tmpl (truncatedContentOf content) (responsesTextOf results)

/-- The de-anonymized stage-1 block list shown to the chairman. -/
def stage1TextOf (results : List Stage1Result) : Str :=
  pyJoin "\n\n---\n\n".data
    (((labelChars results.length).zip results).map
      (fun p => "Model: ".data ++ p.2.model ++ " (anonymized as Response ".data ++
        [p.1] ++ ")\nNotes:\n".data ++ emptyFallback p.2.raw))

/-- The stage-2 evaluation block list shown to the chairman. -/
def stage2TextOf (results : List Stage2Result) : Str :=
  pyJoin "\n\n---\n\n".data
    (results.map (fun r => "Model: ".data ++ r.model ++ "\nEvaluation:\n".data ++ r.ranking))

/-- Lines 454–460 of `synthesizer.py`: the stage-3 chairman prompt. -/
def chairmanPromptOf (tmpl : List CPiece) (content : Str)
    (s1 : List Stage1Result) (s2 : List Stage2Result) : Str :=
  formatChairman tmpl (truncatedContentOf content) (stage1TextOf s1) (stage2TextOf s2)

/-- `for i, note in enumerate(final_notes, start=1): note["id"] = f"note-{i}"`. -/
def renumberFrom : Nat → List Note → List Note
  | _, [] => []
  | i, n :: rest => ⟨noteId i, n.title, n.tags, n.body⟩ :: renumberFrom (i + 1) rest

/-- Chairman generation id, appended when present and non-empty. -/
def chairmanGenIds (r : ModelResp) : List Str :=
  match r.genId with
  | some g => if g = [] then [] else [g]
  | none => []

/-- `generate_zettels_deliberation` from `src/backend/synthesizer.py`.
Model calls are the oracles `s1q`, `s2q` (per stage, per model, given the
messages actually sent) and `chq` (the single chairman call); the stage-2
and stage-3 prompt templates come from prompt files and are parameters. -/
def generate_zettels_deliberation (content system_prompt : Str)
    (council_models : List Str) (chairman_model : Str) (user_comment : Option Str)
    (rtmpl : List RPiece) (ctmpl : List CPiece)
    (s1q s2q : Str → List (Str × Str) → Option ModelResp)
    (chq : List (Str × Str) → Option ModelResp) : DeliberationOut :=
  let stage1_responses := query_models_parallel s1q council_models
      (stage1Messages content system_prompt user_comment)
  let stage1_results := stage1ResultsOf stage1_responses
  let gids1 := genIdsOf stage1_responses
  if stage1_results.all (fun r => r.notes = []) then
    ⟨[], stage1_results, [], [], [], errAllFailed, council_models, chairman_model, gids1⟩
  else
    let label_to_model := labelToModelOf stage1_results
    let ranking_prompt := rankingPromptOf rtmpl content stage1_results
    let stage2_responses :=
      query_models_parallel s2q council_models [("user".data, ranking_prompt)]
    let stage2_results := stage2ResultsOf stage2_responses
    let gids2 := genIdsOf stage2_responses
    let aggregate_rankings := calculate_aggregate_rankings stage2_results label_to_model
    let chairman_prompt := chairmanPromptOf ctmpl content stage1_results stage2_results
    match chq [("user".data, chairman_prompt)] with
    | none =>
        ⟨[], stage1_results, stage2_results, label_to_model, aggregate_rankings,
          errChairman, council_models, chairman_model, gids1 ++ gids2⟩
    | some r =>
        ⟨renumberFrom 1 (parse_zettels r.content), stage1_results, stage2_results,
          label_to_model, aggregate_rankings, r.content, council_models, chairman_model,
          gids1 ++ gids2 ++ chairmanGenIds r⟩

/-- The stage-1 result list a deliberation computes, as a function of the
inputs (for stating theorems about `generate_zettels_deliberation`). -/
def delibStage1 (s1q : Str → List (Str × Str) → Option ModelResp)
    (content system_prompt : Str) (cms : List Str) (uc : Option Str) :
    List Stage1Result :=
  stage1ResultsOf (query_models_parallel s1q cms (stage1Messages content system_prompt uc))

/-- The stage-2 result list a deliberation computes on the non-failure path. -/
def delibStage2 (s1q s2q : Str → List (Str × Str) → Option ModelResp)
    (content system_prompt : Str) (cms : List Str) (uc : Option Str)
    (rt : List RPiece) : List Stage2Result :=
  stage2ResultsOf (query_models_parallel s2q cms
    [("user".data, rankingPromptOf rt content (delibStage1 s1q content system_prompt cms uc))])

/-- The single-message list sent to the chairman on the non-failure path. -/
def delibChairmanMessages (s1q s2q : Str → List (Str × Str) → Option ModelResp)
    (content system_prompt : Str) (cms : List Str) (uc : Option Str)
    (rt : List RPiece) (ct : List CPiece) : List (Str × Str) :=
  [("user".data, chairmanPromptOf ct content
      (delibStage1 s1q content system_prompt cms uc)
      (delibStage2 s1q s2q content system_prompt cms uc rt))]

/-! ## The streaming `event_generator` from `src/backend/main.py` -/

/-- The named server-sent events of the streaming endpoint. -/
inductive SSEEvent where
  | stage1_start
  | stage1_complete
  | stage2_start
  | stage2_complete
  | stage3_start
  | stage3_complete
  | title_complete
  | complete
  | error
deriving DecidableEq, Repr

/-- One streamed run's awaited-step outcomes: `isFirst` records whether a
title task was started (first message in the conversation); each Boolean is
`false` when the corresponding awaited call raises, which the enclosing
`except` turns into a terminal `error` event. -/
structure StreamSteps where
  isFirst : Bool
  addUserOk : Bool
  stage1Ok : Bool
  stage2Ok : Bool
  stage3Ok : Bool
  titleOk : Bool
  saveOk : Bool
deriving DecidableEq, Repr

/-- The event sequence yielded by `event_generator` in `src/backend/main.py`
(lines 185–240), following its control flow: each stage is bracketed by its
start yield and its completion yield; a raise at any awaited point truncates
the stream with a single `error` event; `title_complete` is yielded only
when the title task was started. -/
def event_generator (s : StreamSteps) : List SSEEvent :=
  if !s.addUserOk then [.error]
  else .stage1_start ::
    (if !s.stage1Ok then [.error]
     else .stage1_complete :: .stage2_start ::
       (if !s.stage2Ok then [.error]
        else .stage2_complete :: .stage3_start ::
          (if !s.stage3Ok then [.error]
           else .stage3_complete ::
             (if s.isFirst then
                (if !s.titleOk then [.error]
                 else .title_complete :: (if !s.saveOk then [.error] else [.complete]))
              else (if !s.saveOk then [.error] else [.complete])))))

/-- No awaited step of the streamed run raised. -/
def successfulRun (s : StreamSteps) : Prop :=
  s.addUserOk = true ∧ s.stage1Ok = true ∧ s.stage2Ok = true ∧ s.stage3Ok = true ∧
    s.titleOk = true ∧ s.saveOk = true

/-! ## Theorems -/

/-- C6: for every successful streamed deliberation the emitted event
sequence is exactly `stage1_start, stage1_complete, stage2_start,
stage2_complete, stage3_start, stage3_complete`, then `title_complete`
exactly when a title task was started, then `complete` — each event once,
in that order. -/
theorem streaming_event_order (s : StreamSteps) (h : successfulRun s) :
    event_generator s =
      [SSEEvent.stage1_start, SSEEvent.stage1_complete, SSEEvent.stage2_start,
       SSEEvent.stage2_complete, SSEEvent.stage3_start, SSEEvent.stage3_complete] ++
        (if s.isFirst then [SSEEvent.title_complete] else []) ++ [SSEEvent.complete] := by
  obtain ⟨h1, h2, h3, h4, h5, h6⟩ := h
  cases hf : s.isFirst <;>
    simp [event_generator, h1, h2, h3, h4, h5, h6, hf]

theorem streaming_event_order_witness :
    event_generator ⟨true, true, true, true, true, true, true⟩ =
      [SSEEvent.stage1_start, SSEEvent.stage1_complete, SSEEvent.stage2_start,
       SSEEvent.stage2_complete, SSEEvent.stage3_start, SSEEvent.stage3_complete,
       SSEEvent.title_complete, SSEEvent.complete] := by
  have := streaming_event_order ⟨true, true, true, true, true, true, true⟩
    ⟨rfl, rfl, rfl, rfl, rfl, rfl⟩
  simpa using this

/-- C7: `query_model` is a total function of its inputs (so it never raises
past the client boundary); every failure mode — missing API key, timeout,
transport error, non-2xx status, unparseable body, missing
`choices[0].message` — yields the sentinel `none`, and any `some` result
comes from a well-formed 2xx response and carries its message content and
generation id. -/
theorem query_model_never_raises (k : Str) (u : Upstream) :
    (k = [] → query_model k u = none) ∧
    (u = Upstream.timeout → query_model k u = none) ∧
    (u = Upstream.transportError → query_model k u = none) ∧
    (∀ st b, u = Upstream.httpResponse st b → st < 200 ∨ 300 ≤ st →
      query_model k u = none) ∧
    (∀ st, u = Upstream.httpResponse st none → query_model k u = none) ∧
    (∀ st p, u = Upstream.httpResponse st (some p) → p.choicesMessage = none →
      query_model k u = none) ∧
    (∀ r, query_model k u = some r →
      k ≠ [] ∧ ∃ st p m, u = Upstream.httpResponse st (some p) ∧
        200 ≤ st ∧ st < 300 ∧ p.choicesMessage = some m ∧
        r = ⟨m.content, m.reasoningDetails, p.id⟩) := by
  by_cases hk : k = []
  · have hnone : query_model k u = none := by simp [query_model, hk]
    exact ⟨fun _ => hnone, fun _ => hnone, fun _ => hnone, fun _ _ _ _ => hnone,
      fun _ _ => hnone, fun _ _ _ _ => hnone,
      fun r hr => by rw [hnone] at hr; simp at hr⟩
  · refine ⟨fun h => absurd h hk, fun h => ?_, fun h => ?_, fun st b hu hst => ?_,
      fun st hu => ?_, fun st p hu hm => ?_, fun r hr => ?_⟩
    · subst h; simp [query_model, hk]
    · subst h; simp [query_model, hk]
    · subst hu
      simp only [query_model, if_neg hk]
      rw [if_pos hst]
    · subst hu
      simp only [query_model, if_neg hk]
      split
      · rfl
      · rfl
    · subst hu
      simp only [query_model, if_neg hk, hm]
      split
      · rfl
      · rfl
    · refine ⟨hk, ?_⟩
      rcases u with _ | _ | ⟨st, b⟩
      · simp [query_model, hk] at hr
      · simp [query_model, hk] at hr
      · simp only [query_model, if_neg hk] at hr
        by_cases hst : st < 200 ∨ 300 ≤ st
        · rw [if_pos hst] at hr
          exact absurd hr (by simp)
        · rw [if_neg hst] at hr
          push_neg at hst
          rcases b with _ | p
          · exact absurd hr (by simp)
          · rcases hm : p.choicesMessage with _ | m
            · simp only [hm] at hr
              exact absurd hr (by simp)
            · simp only [hm] at hr
              refine ⟨st, p, m, rfl, hst.1, hst.2, hm, ?_⟩
              simp only [Option.some_inj] at hr
              exact hr.symm

theorem query_model_never_raises_witness :
    query_model [] Upstream.timeout = none ∧
    query_model "k".data Upstream.transportError = none ∧
    query_model "k".data (Upstream.httpResponse 500 none) = none ∧
    query_model "k".data
        (Upstream.httpResponse 200 (some ⟨some ⟨some "hi".data, none⟩, some "gen".data⟩)) =
      some ⟨some "hi".data, none, some "gen".data⟩ := by
  refine ⟨(query_model_never_raises [] Upstream.timeout).1 rfl,
    (query_model_never_raises "k".data Upstream.transportError).2.2.1 rfl,
    (query_model_never_raises "k".data (Upstream.httpResponse 500 none)).2.2.2.1
      500 none rfl (Or.inr (by decide)), by decide⟩

/-- A piece's expansion is an infix of the formatted ranking prompt. -/
theorem formatRanking_infix (tmpl : List RPiece) (src resp : Str)
    (h : RPiece.sourceContent ∈ tmpl) :
    src <:+: formatRanking tmpl src resp := by
  obtain ⟨s, t, rfl⟩ := List.append_of_mem h
  refine ⟨formatRanking s src resp, formatRanking t src resp, ?_⟩
  simp [formatRanking]

/-- A piece's expansion is an infix of the formatted chairman prompt. -/
theorem formatChairman_infix (tmpl : List CPiece) (src s1 s2 : Str)
    (h : CPiece.sourceContent ∈ tmpl) :
    src <:+: formatChairman tmpl src s1 s2 := by
  obtain ⟨s, t, rfl⟩ := List.append_of_mem h
  refine ⟨formatChairman s src s1 s2, formatChairman t src s1 s2, ?_⟩
  simp [formatChairman]

/-- C8: when the source content exceeds 10000 characters, both the stage-2
ranking prompt and the stage-3 chairman prompt are formatted from exactly
the first 10000 characters followed by `...`; otherwise from the full
content.  Whenever the template uses its source-content placeholder, that
truncated text appears verbatim inside the prompt. -/
theorem prompt_content_truncation (tmplR : List RPiece) (tmplC : List CPiece)
    (content : Str) (s1 : List Stage1Result) (s2 : List Stage2Result) :
    (10000 < content.length →
      rankingPromptOf tmplR content s1 =
        formatRanking tmplR (content.take 10000 ++ "...".data) (responsesTextOf s1) ∧
      chairmanPromptOf tmplC content s1 s2 =
        formatChairman tmplC (content.take 10000 ++ "...".data)
          (stage1TextOf s1) (stage2TextOf s2)) ∧
    (content.length ≤ 10000 →
      rankingPromptOf tmplR content s1 =
        formatRanking tmplR content (responsesTextOf s1) ∧
      chairmanPromptOf tmplC content s1 s2 =
        formatChairman tmplC content (stage1TextOf s1) (stage2TextOf s2)) ∧
    (RPiece.sourceContent ∈ tmplR →
      truncatedContentOf content <:+: rankingPromptOf tmplR content s1) ∧
    (CPiece.sourceContent ∈ tmplC →
      truncatedContentOf content <:+: chairmanPromptOf tmplC content s1 s2) := by
  refine ⟨fun h => ?_, fun h => ?_, fun h => ?_, fun h => ?_⟩
  · constructor
    · simp only [rankingPromptOf, truncatedContentOf, if_pos h]
    · simp only [chairmanPromptOf, truncatedContentOf, if_pos h]
  · have h2 : ¬ (10000 < content.length) := by omega
    constructor
    · simp only [rankingPromptOf, truncatedContentOf, if_neg h2]
    · simp only [chairmanPromptOf, truncatedContentOf, if_neg h2]
  · exact formatRanking_infix tmplR _ _ h
  · exact formatChairman_infix tmplC _ _ _ h

theorem prompt_content_truncation_witness :
    10000 < (List.replicate 10001 'a').length ∧
    rankingPromptOf [RPiece.sourceContent] (List.replicate 10001 'a') [] =
      formatRanking [RPiece.sourceContent]
        ((List.replicate 10001 'a').take 10000 ++ "...".data) (responsesTextOf []) := by
  have h : 10000 < (List.replicate 10001 'a').length := by
    rw [List.length_replicate]
    omega
  exact ⟨h,
    ((prompt_content_truncation [RPiece.sourceContent] [] (List.replicate 10001 'a')
      [] []).1 h).1⟩

theorem toNat_ofNat_valid (n : Nat) (h : n.isValidChar) : (Char.ofNat n).toNat = n := by
  unfold Char.ofNat
  rw [dif_pos h]
  rfl

theorem labelChars_length (n : Nat) : (labelChars n).length = n := by
  simp [labelChars]

theorem labelChars_nodup (n : Nat) (h : n ≤ 55231) : (labelChars n).Nodup := by
  refine List.Nodup.map_on ?_ (List.nodup_range n)
  intro x hx y hy hxy
  have hvx : (65 + x).isValidChar := Or.inl (by
    have := List.mem_range.mp hx
    omega)
  have hvy : (65 + y).isValidChar := Or.inl (by
    have := List.mem_range.mp hy
    omega)
  have hx' := toNat_ofNat_valid (65 + x) hvx
  have hy' := toNat_ofNat_valid (65 + y) hvy
  have : (65 : Nat) + x = 65 + y := by rw [← hx', ← hy', hxy]
  omega

theorem labelChars_get (n : Nat) (i : Nat) (hi : i < (labelChars n).length) :
    (labelChars n).get ⟨i, hi⟩ = Char.ofNat (65 + i) := by
  simp [labelChars]

theorem labelName_inj (c c' : Char) (h : labelName c = labelName c') : c = c' := by
  unfold labelName at h
  have := List.append_cancel_left h
  simpa using this

/-- C2 counterexample: with 27 stage-1 entries the 27th anonymized label is
the character `'['` — a single non-alphabetic character, not the string
`AA`. -/
theorem labels_27th_not_AA :
    labelChars 27 = "ABCDEFGHIJKLMNOPQRSTUVWXYZ[".data ∧
    ('[').isAlpha = false := by
  constructor
  · decide
  · decide

/-- C2 amended: labels are assigned in input order as the consecutive
characters `chr(65 + i)` — `A` through `Z` for the first 26, then
continuing through the following Unicode code points (`'['`, `'\'`, ...)
rather than `AA, AB, ...`.  They are pairwise distinct for any stage-1
count small enough that every code point stays below the surrogate range
(and a fortiori for real council sizes). -/
theorem labels_assignment (n : Nat) (h : n ≤ 55231) :
    (labelChars n).length = n ∧
    (labelChars n).Nodup ∧
    (∀ i (hi : i < (labelChars n).length),
      (labelChars n).get ⟨i, hi⟩ = Char.ofNat (65 + i)) ∧
    (∀ i (hi : i < (labelChars n).length), i < 26 →
      ((labelChars n).get ⟨i, hi⟩).isAlpha = true) := by
  refine ⟨labelChars_length n, labelChars_nodup n h, labelChars_get n, ?_⟩
  intro i hi h26
  rw [labelChars_get n i hi]
  have halpha : ∀ j, j < 26 → (Char.ofNat (65 + j)).isAlpha = true := by decide
  exact halpha i h26

theorem labels_assignment_witness :
    (labelChars 3).length = 3 ∧ (labelChars 3).Nodup ∧
    (labelChars 3).get ⟨2, by decide⟩ = 'C' := by
  obtain ⟨h1, h2, h3, _⟩ := labels_assignment 3 (by omega)
  exact ⟨h1, h2, (h3 2 (by decide)).trans (by decide)⟩

def keysOf {α : Type} (d : List (Str × α)) : List Str := d.map Prod.fst

theorem fst_dictUpdate {α : Type} (k : Str) (v : α) (p : Str × α) :
    (if p.1 = k then (k, v) else p).1 = p.1 := by
  by_cases h : p.1 = k
  · rw [if_pos h]
    exact h.symm
  · rw [if_neg h]

theorem any_key_iff {α : Type} (d : List (Str × α)) (k : Str) :
    d.any (fun p => p.1 = k) = true ↔ k ∈ keysOf d := by
  rw [List.any_eq_true]
  constructor
  · rintro ⟨p, hp, he⟩
    rw [decide_eq_true_eq] at he
    exact he ▸ List.mem_map_of_mem Prod.fst hp
  · intro hk
    obtain ⟨p, hp, he⟩ := List.mem_map.mp hk
    exact ⟨p, hp, by rw [decide_eq_true_eq]; exact he⟩

theorem keysOf_pyDictInsert {α : Type} (d : List (Str × α)) (k : Str) (v : α) :
    keysOf (pyDictInsert d k v) =
      if k ∈ keysOf d then keysOf d else keysOf d ++ [k] := by
  unfold pyDictInsert
  by_cases h : k ∈ keysOf d
  · rw [if_pos ((any_key_iff d k).mpr h), if_pos h]
    simp only [keysOf, List.map_map]
    exact List.map_congr_left (fun p _ => fst_dictUpdate k v p)
  · have hfalse : ¬ (d.any (fun p => p.1 = k) = true) := fun hany =>
      h ((any_key_iff d k).mp hany)
    rw [if_neg hfalse, if_neg h]
    simp [keysOf]

theorem keysOf_pyDictInsert_nodup {α : Type} (d : List (Str × α)) (k : Str) (v : α)
    (h : (keysOf d).Nodup) : (keysOf (pyDictInsert d k v)).Nodup := by
  rw [keysOf_pyDictInsert]
  by_cases hk : k ∈ keysOf d
  · rwa [if_pos hk]
  · rw [if_neg hk]
    simp [List.nodup_append, h, hk]

theorem mem_keysOf_pyDictInsert {α : Type} (d : List (Str × α)) (k x : Str) (v : α) :
    x ∈ keysOf (pyDictInsert d k v) ↔ x ∈ keysOf d ∨ x = k := by
  rw [keysOf_pyDictInsert]
  by_cases hk : k ∈ keysOf d
  · rw [if_pos hk]
    constructor
    · exact Or.inl
    · rintro (h | rfl)
      · exact h
      · exact hk
  · rw [if_neg hk]
    simp

theorem pyDictFold_nodup {α : Type} (ps : List (Str × α)) :
    ∀ d : List (Str × α), (keysOf d ++ keysOf ps).Nodup →
      ps.foldl (fun d p => pyDictInsert d p.1 p.2) d = d ++ ps := by
  induction ps with
  | nil => intro d _; simp
  | cons p ps ih =>
    intro d hnd
    have hcopy : (keysOf d ++ p.1 :: keysOf ps).Nodup := by
      simpa [keysOf] using hnd
    have hsplit := List.nodup_append.mp hcopy
    have hk : ¬ p.1 ∈ keysOf d := fun hmem =>
      hsplit.2.2 hmem (List.mem_cons_self _ _)
    have hins : pyDictInsert d p.1 p.2 = d ++ [p] := by
      unfold pyDictInsert
      rw [if_neg (fun hany => hk ((any_key_iff d p.1).mp hany))]
    have hnext : (keysOf (d ++ [p]) ++ keysOf ps).Nodup := by
      have heq : keysOf (d ++ [p]) ++ keysOf ps = keysOf d ++ p.1 :: keysOf ps := by
        simp [keysOf]
      rw [heq]
      exact hcopy
    rw [List.foldl_cons, hins, ih (d ++ [p]) hnext, List.append_assoc]
    rfl

theorem pyDictOfList_of_nodup {α : Type} (ps : List (Str × α))
    (h : (keysOf ps).Nodup) : pyDictOfList ps = ps := by
  unfold pyDictOfList
  rw [pyDictFold_nodup ps [] (by simpa [keysOf] using h)]
  rfl

theorem keysOf_nil {α : Type} : keysOf ([] : List (Str × α)) = [] := rfl

theorem keysOf_cons {α : Type} (p : Str × α) (ps : List (Str × α)) :
    keysOf (p :: ps) = p.1 :: keysOf ps := rfl

theorem pyDictFold_keys {α : Type} (ps : List (Str × α)) :
    ∀ d : List (Str × α), (keysOf d).Nodup →
      (keysOf (ps.foldl (fun d p => pyDictInsert d p.1 p.2) d)).Nodup ∧
      ∀ x, x ∈ keysOf (ps.foldl (fun d p => pyDictInsert d p.1 p.2) d) ↔
        x ∈ keysOf d ∨ x ∈ keysOf ps := by
  induction ps with
  | nil =>
    intro d hd
    refine ⟨hd, fun x => ?_⟩
    rw [List.foldl_nil, keysOf_nil]
    simp
  | cons p ps ih =>
    intro d hd
    rw [List.foldl_cons]
    obtain ⟨h1, h2⟩ := ih (pyDictInsert d p.1 p.2) (keysOf_pyDictInsert_nodup d p.1 p.2 hd)
    refine ⟨h1, fun x => ?_⟩
    rw [h2 x, mem_keysOf_pyDictInsert, keysOf_cons, List.mem_cons]
    tauto

theorem pyDictOfList_keys {α : Type} (ps : List (Str × α)) :
    (keysOf (pyDictOfList ps)).Nodup ∧
      ∀ x, x ∈ keysOf (pyDictOfList ps) ↔ x ∈ keysOf ps := by
  obtain ⟨h1, h2⟩ := pyDictFold_keys ps [] (by rw [keysOf_nil]; exact List.nodup_nil)
  refine ⟨h1, fun x => ?_⟩
  rw [show pyDictOfList ps = ps.foldl (fun d p => pyDictInsert d p.1 p.2) [] from rfl,
    h2 x, keysOf_nil]
  simp

/-- C9: `query_models_parallel` with a duplicate-free model list returns one
entry per model, each model paired with the outcome of its own
`query_model` call on the shared message list, in input order; a duplicated
model collapses in the dict and the result has strictly fewer entries than
the input list. -/
theorem parallel_query_pairing (q : Str → List (Str × Str) → Option QueryResult)
    (models : List Str) (messages : List (Str × Str)) :
    (models.Nodup →
      query_models_parallel q models messages =
        models.map (fun m => (m, q m messages))) ∧
    (¬ models.Nodup →
      (query_models_parallel q models messages).length < models.length) := by
  have hkeys : keysOf (models.map (fun m => (m, q m messages))) = models := by
    have h1 : (Prod.fst ∘ fun m => (m, q m messages)) = fun m : Str => m := rfl
    have h2 : List.map (fun m : Str => m) models = models := List.map_id models
    rw [keysOf, List.map_map, h1, h2]
  constructor
  · intro hnd
    unfold query_models_parallel
    exact pyDictOfList_of_nodup _ (by rwa [hkeys])
  · intro hnd
    obtain ⟨h1, h2⟩ := pyDictOfList_keys (models.map (fun m => (m, q m messages)))
    have hsub : keysOf (pyDictOfList (models.map (fun m => (m, q m messages)))) ⊆
        models.dedup := by
      intro x hx
      exact List.mem_dedup.mpr (by rw [← hkeys]; exact (h2 x).mp hx)
    have hle : (keysOf (pyDictOfList (models.map (fun m => (m, q m messages))))).length ≤
        models.dedup.length :=
      (List.subperm_of_subset h1 hsub).length_le
    have hlt : models.dedup.length < models.length := by
      rcases Nat.lt_or_ge models.dedup.length models.length with h | h
      · exact h
      · exfalso
        have heq := (models.dedup_sublist).eq_of_length
          (Nat.le_antisymm (models.dedup_sublist).length_le h)
        rw [← heq] at hnd
        exact hnd (List.nodup_dedup models)
    have hlen : (query_models_parallel q models messages).length =
        (keysOf (pyDictOfList (models.map (fun m => (m, q m messages))))).length := by
      simp [query_models_parallel, keysOf]
    omega

theorem parallel_query_pairing_witness :
    query_models_parallel (fun _ _ => (none : Option QueryResult))
        ["a".data, "b".data] [] =
      [("a".data, none), ("b".data, none)] ∧
    (query_models_parallel (fun _ _ => (none : Option QueryResult))
        ["a".data, "a".data] []).length < 2 := by
  refine ⟨?_, ?_⟩
  · exact (parallel_query_pairing (fun _ _ => none) ["a".data, "b".data] []).1 (by decide)
  · exact (parallel_query_pairing (fun _ _ => none) ["a".data, "a".data] []).2 (by decide)

/-- A note with non-empty title and body whose tags all pass the tag-word
check of the source. -/
def goodNote (n : Note) : Prop :=
  n.title ≠ [] ∧ n.body ≠ [] ∧ ∀ t ∈ n.tags, isTagWord t = true

/-- Ids run `note-1` through `note-N` in list order. -/
def idsSeq (l : List Note) : Prop :=
  ∀ i (hi : i < l.length), (l.get ⟨i, hi⟩).id = noteId (i + 1)

theorem idsSeq_append (l : List Note) (n : Note) (hl : idsSeq l)
    (hn : n.id = noteId (l.length + 1)) : idsSeq (l ++ [n]) := by
  intro i hi
  rw [List.length_append] at hi
  simp only [List.length_singleton] at hi
  rcases Nat.lt_or_ge i l.length with h | h
  · rw [List.get_eq_getElem, List.getElem_append_left h]
    exact hl i h
  · have hieq : i = l.length := by omega
    subst hieq
    rw [List.get_eq_getElem, List.getElem_append_right h]
    simpa using hn

theorem findTags_tags (ls : List Str) :
    ∀ (i : Nat) (w : Str), w ∈ (findTags i ls).1 → isTagWord w = true := by
  induction ls with
  | nil =>
    intro i w hw
    simp [findTags] at hw
  | cons line rest ih =>
    intro i w hw
    simp only [findTags] at hw
    by_cases h1 : pyStrip line = []
    · rw [if_pos h1] at hw
      exact ih (i + 1) w hw
    · rw [if_neg h1] at hw
      by_cases h2 : (pyWords (pyStrip line)).all isTagWord = true
      · rw [if_pos h2] at hw
        exact List.all_eq_true.mp h2 w hw
      · rw [if_neg h2] at hw
        simp at hw

theorem parseSectionCore_sound (s t : Str) (tags : List Str) (b : Str)
    (h : parseSectionCore s = some (t, tags, b)) :
    t ≠ [] ∧ b ≠ [] ∧ ∀ w ∈ tags, isTagWord w = true := by
  simp only [parseSectionCore] at h
  split at h
  · exact Option.noConfusion h
  · split at h
    · exact Option.noConfusion h
    · split at h
      · exact Option.noConfusion h
      · next htitle =>
        split at h
        · exact Option.noConfusion h
        · next hbody =>
          rw [Option.some_inj, Prod.mk.injEq, Prod.mk.injEq] at h
          obtain ⟨ht, htg, hb⟩ := h
          refine ⟨ht ▸ htitle, hb ▸ hbody, ?_⟩
          intro w hw
          rw [← htg] at hw
          exact findTags_tags _ 1 w hw

theorem parse_zettels_loop (secs : List Str) :
    ∀ acc : List Note, (∀ n ∈ acc, goodNote n) → idsSeq acc →
      (∀ n ∈ secs.foldl parseFold acc, goodNote n) ∧
        idsSeq (secs.foldl parseFold acc) := by
  induction secs with
  | nil =>
    intro acc hg hi
    exact ⟨hg, hi⟩
  | cons sec rest ih =>
    intro acc hg hi
    rw [List.foldl_cons]
    rcases hp : parseSectionCore sec with _ | tb
    · have hstep : parseFold acc sec = acc := by
        simp [parseFold, hp]
      rw [hstep]
      exact ih acc hg hi
    · have hstep : parseFold acc sec =
          acc ++ [⟨noteId (acc.length + 1), tb.1, tb.2.1, tb.2.2⟩] := by
        simp [parseFold, hp]
      rw [hstep]
      obtain ⟨ht, hb, htags⟩ := parseSectionCore_sound sec tb.1 tb.2.1 tb.2.2 (by
        rw [hp])
      refine ih _ ?_ (idsSeq_append acc _ hi rfl)
      intro n hn
      rcases List.mem_append.mp hn with hmem | hmem
      · exact hg n hmem
      · rw [List.mem_singleton] at hmem
        subst hmem
        exact ⟨ht, hb, htags⟩

/-- C10: every note produced by `parse_zettels` has a non-empty title and a
non-empty body, all its tags start with `#` and are longer than one
character, and ids are assigned sequentially `note-1` through `note-N` in
output order.  `parse_zettels` is a total function of the input text (and
hence deterministic): unparseable text yields `[]` rather than an error. -/
theorem parse_zettels_invariants (raw : Str) :
    (∀ n ∈ parse_zettels raw,
      n.title ≠ [] ∧ n.body ≠ [] ∧
        ∀ t ∈ n.tags, t.head? = some '#' ∧ 1 < t.length) ∧
    ∀ i (hi : i < (parse_zettels raw).length),
      ((parse_zettels raw).get ⟨i, hi⟩).id = noteId (i + 1) := by
  obtain ⟨h1, h2⟩ := parse_zettels_loop (pySplitSections raw) []
    (by intro n hn; simp at hn) (by intro i hi; simp at hi)
  refine ⟨fun n hn => ?_, h2⟩
  obtain ⟨ht, hb, htags⟩ := h1 n hn
  refine ⟨ht, hb, fun t htmem => ?_⟩
  have := htags t htmem
  simpa [isTagWord, Bool.and_eq_true, decide_eq_true_eq] using this

theorem parse_zettels_invariants_witness :
    ((parse_zettels "# T\n\n#tag\n\nBody".data).get ⟨0, by decide⟩).id = noteId 1 ∧
    ("#tag".data.head? = some '#' ∧ 1 < "#tag".data.length) := by
  refine ⟨(parse_zettels_invariants "# T\n\n#tag\n\nBody".data).2 0 (by decide), ?_⟩
  have hmem : (⟨"note-1".data, "T".data, ["#tag".data], "Body".data⟩ : Note) ∈
      parse_zettels "# T\n\n#tag\n\nBody".data := by decide
  exact ((parse_zettels_invariants "# T\n\n#tag\n\nBody".data).1 _ hmem).2.2
    "#tag".data (by decide)

/-- The strict version of the aggregate sort order: average position
ascending, ties by votes descending, final ties by stage-1 index. -/
def aggStrictLt (a b : AggEntry × Nat) : Prop :=
  a.1.averagePosition < b.1.averagePosition ∨
    (a.1.averagePosition = b.1.averagePosition ∧
      (b.1.votes < a.1.votes ∨ (a.1.votes = b.1.votes ∧ a.2 < b.2)))

theorem aggLe_iff (a b : AggEntry × Nat) :
    aggLe a b ↔ (a.1.averagePosition < b.1.averagePosition ∨
      (a.1.averagePosition = b.1.averagePosition ∧
        (b.1.votes < a.1.votes ∨ (a.1.votes = b.1.votes ∧ a.2 ≤ b.2)))) := by
  unfold aggLe aggKey
  rw [Prod.Lex.le_iff, Prod.Lex.le_iff]
  constructor
  · rintro (h | ⟨he, h2 | ⟨he2, hi⟩⟩)
    · exact Or.inl h
    · exact Or.inr ⟨he, Or.inl (OrderDual.toDual_lt_toDual.mp h2)⟩
    · exact Or.inr ⟨he, Or.inr ⟨OrderDual.toDual_inj.mp he2, hi⟩⟩
  · rintro (h | ⟨he, h2 | ⟨he2, hi⟩⟩)
    · exact Or.inl h
    · exact Or.inr ⟨he, Or.inl (OrderDual.toDual_lt_toDual.mpr h2)⟩
    · exact Or.inr ⟨he, Or.inr ⟨OrderDual.toDual_inj.mpr he2, hi⟩⟩

theorem aggLe_ne_strict (a b : AggEntry × Nat) (hle : aggLe a b) (hne : a.2 ≠ b.2) :
    aggStrictLt a b := by
  rcases (aggLe_iff a b).mp hle with h | ⟨he, h2 | ⟨he2, hi⟩⟩
  · exact Or.inl h
  · exact Or.inr ⟨he, Or.inl h2⟩
  · exact Or.inr ⟨he, Or.inr ⟨he2, lt_of_le_of_ne hi hne⟩⟩

theorem rawEntriesAux_idx_ge (st2 : List Stage2Result) (lm : List (Str × Str)) :
    ∀ i, ∀ x ∈ rawEntriesAux st2 i lm, i ≤ x.2 := by
  induction lm with
  | nil =>
    intro i x hx
    simp [rawEntriesAux] at hx
  | cons p rest ih =>
    intro i x hx
    simp only [rawEntriesAux] at hx
    by_cases hps : positionsOf st2 p.1 = []
    · rw [if_pos hps] at hx
      have := ih (i + 1) x hx
      omega
    · rw [if_neg hps] at hx
      rcases List.mem_cons.mp hx with rfl | hmem
      · exact le_refl i
      · have := ih (i + 1) x hmem
        omega

theorem rawEntriesAux_idx_pairwise (st2 : List Stage2Result) (lm : List (Str × Str)) :
    ∀ i, (rawEntriesAux st2 i lm).Pairwise (fun a b => a.2 < b.2) := by
  induction lm with
  | nil =>
    intro i
    simp [rawEntriesAux]
  | cons p rest ih =>
    intro i
    simp only [rawEntriesAux]
    by_cases hps : positionsOf st2 p.1 = []
    · rw [if_pos hps]
      exact ih (i + 1)
    · rw [if_neg hps]
      refine List.Pairwise.cons (fun b hb => ?_) (ih (i + 1))
      have := rawEntriesAux_idx_ge st2 rest (i + 1) b hb
      omega

theorem rawEntriesAux_model_mem (st2 : List Stage2Result) (lm : List (Str × Str)) :
    ∀ i, ∀ x ∈ rawEntriesAux st2 i lm, x.1.model ∈ lm.map Prod.snd := by
  induction lm with
  | nil =>
    intro i x hx
    simp [rawEntriesAux] at hx
  | cons p rest ih =>
    intro i x hx
    simp only [rawEntriesAux] at hx
    by_cases hps : positionsOf st2 p.1 = []
    · rw [if_pos hps] at hx
      exact List.mem_cons_of_mem _ (ih (i + 1) x hx)
    · rw [if_neg hps] at hx
      rcases List.mem_cons.mp hx with rfl | hmem
      · exact List.mem_cons_self _ _
      · exact List.mem_cons_of_mem _ (ih (i + 1) x hmem)

/-- C4: the aggregate-rankings output is the sorted entry list projected
from its stage-1 indices; the sorted list is pairwise *strictly* increasing
in the order "average position ascending, ties by votes descending, final
ties by original stage-1 order", so the ordering is total and fully
deterministic; and it is a permutation of the unsorted per-model entries. -/
theorem aggregate_rankings_sorted (stage2 : List Stage2Result)
    (lm : List (Str × Str)) :
    calculate_aggregate_rankings stage2 lm =
      (aggSortedWithIdx stage2 lm).map Prod.fst ∧
    (aggSortedWithIdx stage2 lm).Pairwise aggStrictLt ∧
    (aggSortedWithIdx stage2 lm).Perm (rawEntriesAux stage2 0 lm) := by
  refine ⟨rfl, ?_, List.perm_insertionSort aggLe _⟩
  have hsorted : (aggSortedWithIdx stage2 lm).Pairwise aggLe :=
    List.sorted_insertionSort aggLe _
  have hperm := List.perm_insertionSort aggLe (rawEntriesAux stage2 0 lm)
  have hnodup_raw : (List.map Prod.snd (rawEntriesAux stage2 0 lm)).Nodup := by
    have : List.Pairwise (fun a b : Nat => a ≠ b)
        (List.map Prod.snd (rawEntriesAux stage2 0 lm)) := by
      rw [List.pairwise_map]
      exact (rawEntriesAux_idx_pairwise stage2 lm 0).imp (fun h => Nat.ne_of_lt h)
    exact this
  have hnodup_sorted : (List.map Prod.snd (aggSortedWithIdx stage2 lm)).Nodup :=
    ((hperm.map Prod.snd).nodup_iff).mpr hnodup_raw
  have hne : (aggSortedWithIdx stage2 lm).Pairwise (fun a b => a.2 ≠ b.2) := by
    have h2 : List.Pairwise (fun a b : Nat => a ≠ b)
        (List.map Prod.snd (aggSortedWithIdx stage2 lm)) := hnodup_sorted
    rw [List.pairwise_map] at h2
    exact h2
  exact (hsorted.and hne).imp (fun h => aggLe_ne_strict _ _ h.1 h.2)

theorem pyJoin_mem_infix (sep : Str) (parts : List Str) (p : Str) (h : p ∈ parts) :
    p <:+: pyJoin sep parts := by
  induction parts with
  | nil => simp at h
  | cons q rest ih =>
    rcases List.mem_cons.mp h with rfl | hmem
    · rcases rest with _ | ⟨r, rest'⟩
      · exact List.infix_refl p
      · exact ⟨[], sep ++ pyJoin sep (r :: rest'), by simp [pyJoin]⟩
    · rcases rest with _ | ⟨r, rest'⟩
      · simp at hmem
      · have hi := ih hmem
        refine hi.trans ⟨q ++ sep, [], ?_⟩
        simp [pyJoin]

theorem labelToModelOf_eq (s1 : List Stage1Result) (h : s1.length ≤ 55231) :
    labelToModelOf s1 =
      ((labelChars s1.length).zip s1).map (fun p => (labelName p.1, p.2.model)) := by
  unfold labelToModelOf
  apply pyDictOfList_of_nodup
  have hkeys : keysOf (((labelChars s1.length).zip s1).map
        (fun p => (labelName p.1, p.2.model))) =
      ((labelChars s1.length).zip s1).map (fun p => labelName p.1) := by
    simp [keysOf, List.map_map]
  rw [hkeys]
  have hfst : ((labelChars s1.length).zip s1).map (fun p => labelName p.1) =
      ((labelChars s1.length).zip s1).map (labelName ∘ Prod.fst) := rfl
  rw [hfst, ← List.map_map, List.map_fst_zip _ _ (by rw [labelChars_length])]
  exact List.Nodup.map_on
    (fun x _ y _ hxy => labelName_inj x y hxy) (labelChars_nodup s1.length h)

theorem responsesTextOf_block_infix (s1 : List Stage1Result)
    (p : Char × Stage1Result) (hp : p ∈ (labelChars s1.length).zip s1) :
    labelName p.1 ++ ":\n".data ++ emptyFallback p.2.raw <:+: responsesTextOf s1 := by
  unfold responsesTextOf
  exact pyJoin_mem_infix _ _ _ (List.mem_map_of_mem _ hp)

theorem calculate_aggregate_model_mem (st2 : List Stage2Result)
    (ltm : List (Str × Str)) :
    ∀ e ∈ calculate_aggregate_rankings st2 ltm, e.model ∈ ltm.map Prod.snd := by
  intro e he
  unfold calculate_aggregate_rankings aggSortedWithIdx at he
  obtain ⟨x, hx, rfl⟩ := List.mem_map.mp he
  exact rawEntriesAux_model_mem st2 ltm 0 x
    (((List.perm_insertionSort aggLe _).mem_iff).mp hx)

/-- On the failure path (no stage-1 result has any parsed note) the
deliberation returns the explicit all-failed record. -/
theorem delib_failure (content system_prompt : Str) (cms : List Str) (chm : Str)
    (uc : Option Str) (rt : List RPiece) (ct : List CPiece)
    (s1q s2q : Str → List (Str × Str) → Option ModelResp)
    (chq : List (Str × Str) → Option ModelResp)
    (h : (delibStage1 s1q content system_prompt cms uc).all
        (fun x => x.notes = []) = true) :
    generate_zettels_deliberation content system_prompt cms chm uc rt ct s1q s2q chq =
      ⟨[], delibStage1 s1q content system_prompt cms uc, [], [], [], errAllFailed, cms, chm,
        genIdsOf (query_models_parallel s1q cms
          (stage1Messages content system_prompt uc))⟩ := by
  simp only [delibStage1] at h
  simp only [generate_zettels_deliberation, delibStage1]
  rw [if_pos h]

/-- On the non-failure path every pre-stage-3 field of the deliberation
result equals its stage definition, whatever the chairman call returns. -/
theorem delib_fields (content system_prompt : Str) (cms : List Str) (chm : Str)
    (uc : Option Str) (rt : List RPiece) (ct : List CPiece)
    (s1q s2q : Str → List (Str × Str) → Option ModelResp)
    (chq : List (Str × Str) → Option ModelResp)
    (h : ¬ ((delibStage1 s1q content system_prompt cms uc).all
        (fun x => x.notes = []) = true)) :
    (generate_zettels_deliberation content system_prompt cms chm uc rt ct
        s1q s2q chq).stage1 = delibStage1 s1q content system_prompt cms uc ∧
    (generate_zettels_deliberation content system_prompt cms chm uc rt ct
        s1q s2q chq).stage2 = delibStage2 s1q s2q content system_prompt cms uc rt ∧
    (generate_zettels_deliberation content system_prompt cms chm uc rt ct
        s1q s2q chq).label_to_model =
      labelToModelOf (delibStage1 s1q content system_prompt cms uc) ∧
    (generate_zettels_deliberation content system_prompt cms chm uc rt ct
        s1q s2q chq).aggregate_rankings =
      calculate_aggregate_rankings (delibStage2 s1q s2q content system_prompt cms uc rt)
        (labelToModelOf (delibStage1 s1q content system_prompt cms uc)) ∧
    (chq (delibChairmanMessages s1q s2q content system_prompt cms uc rt ct) = none →
      (generate_zettels_deliberation content system_prompt cms chm uc rt ct
          s1q s2q chq).stage3_raw = errChairman ∧
      (generate_zettels_deliberation content system_prompt cms chm uc rt ct
          s1q s2q chq).notes = []) ∧
    (∀ r, chq (delibChairmanMessages s1q s2q content system_prompt cms uc rt ct) = some r →
      (generate_zettels_deliberation content system_prompt cms chm uc rt ct
          s1q s2q chq).stage3_raw = r.content) := by
  simp only [delibStage1] at h
  simp only [generate_zettels_deliberation, delibStage1, delibStage2,
    delibChairmanMessages]
  rw [if_neg h]
  rcases hc : chq [("user".data,
      chairmanPromptOf ct content
        (stage1ResultsOf (query_models_parallel s1q cms
          (stage1Messages content system_prompt uc)))
        (stage2ResultsOf (query_models_parallel s2q cms
          [("user".data, rankingPromptOf rt content
            (stage1ResultsOf (query_models_parallel s1q cms
              (stage1Messages content system_prompt uc))))])))] with _ | r
  · exact ⟨rfl, rfl, rfl, rfl, fun _ => ⟨rfl, rfl⟩,
      fun r hr => Option.noConfusion hr⟩
  · refine ⟨rfl, rfl, rfl, rfl, fun hn => Option.noConfusion hn, fun r' hr' => ?_⟩
    rw [Option.some_inj] at hr'
    rw [hr']

/-! ### Concrete fixtures for counterexamples and witnesses -/

/-- A stage-1 response text that parses into one note. -/
def goodRaw : Str := "# T\n\n#t\n\nbody".data

/-- An oracle whose every call fails. -/
def qNone : Str → List (Str × Str) → Option ModelResp := fun _ _ => none

/-- A chairman oracle whose call fails. -/
def chqNone : List (Str × Str) → Option ModelResp := fun _ => none

/-- Stage-1 oracle where `m1` succeeds with a parseable note and every
other model fails. -/
def s1qPartial : Str → List (Str × Str) → Option ModelResp :=
  fun m _ => if m = "m1".data then some ⟨goodRaw, none⟩ else none

def delibPartial : DeliberationOut :=
  generate_zettels_deliberation "c".data "sys".data ["m1".data, "m2".data] "ch".data
    none [] [] s1qPartial qNone chqNone

/-- Stage-1 oracle that succeeds with text that parses into no notes. -/
def s1qHello : Str → List (Str × Str) → Option ModelResp :=
  fun _ _ => some ⟨"hello".data, none⟩

def delibHello : DeliberationOut :=
  generate_zettels_deliberation "c".data "sys".data ["m1".data] "ch".data none [] []
    s1qHello qNone chqNone

/-- C1 counterexample: with council `[m1, m2]` where `m2`'s stage-1 call
fails, `label_to_model` still contains the failed `m2` under `Response B` —
failed models are not excluded from labelling. -/
theorem label_map_contains_failed_model :
    s1qPartial "m2".data (stage1Messages "c".data "sys".data none) = none ∧
    delibPartial.label_to_model =
      [("Response A".data, "m1".data), ("Response B".data, "m2".data)] ∧
    delibPartial.stage1 =
      [⟨"m1".data, [⟨"note-1".data, "T".data, ["#t".data], "body".data⟩], goodRaw⟩,
       ⟨"m2".data, [], errNoRespond⟩] := by
  refine ⟨rfl, ?_, ?_⟩ <;> decide

/-- C1 corrected/amended: every stage-1 entry — models whose stage-1 call
failed included, carrying the error placeholder as their text — receives
an anonymized label in order, and `label_to_model` pairs the i-th label
with the i-th stage-1 entry's model; each entry's labelled block is
embedded verbatim in the anonymized responses text of the stage-2 prompt;
and every aggregate-rankings entry references a model of `label_to_model`
(only labels actually ranked produce entries). -/
theorem labels_cover_all_stage1 (content system_prompt : Str) (cms : List Str)
    (chm : Str) (uc : Option Str) (rt : List RPiece) (ct : List CPiece)
    (s1q s2q : Str → List (Str × Str) → Option ModelResp)
    (chq : List (Str × Str) → Option ModelResp)
    (h : ¬ ((delibStage1 s1q content system_prompt cms uc).all
        (fun x => x.notes = []) = true))
    (hb : (delibStage1 s1q content system_prompt cms uc).length ≤ 55231) :
    (generate_zettels_deliberation content system_prompt cms chm uc rt ct
        s1q s2q chq).label_to_model =
      ((labelChars (delibStage1 s1q content system_prompt cms uc).length).zip
        (delibStage1 s1q content system_prompt cms uc)).map
          (fun p => (labelName p.1, p.2.model)) ∧
    (∀ p ∈ (labelChars (delibStage1 s1q content system_prompt cms uc).length).zip
        (delibStage1 s1q content system_prompt cms uc),
      labelName p.1 ++ ":\n".data ++ emptyFallback p.2.raw <:+:
        responsesTextOf (delibStage1 s1q content system_prompt cms uc)) ∧
    (∀ e ∈ (generate_zettels_deliberation content system_prompt cms chm uc rt ct
        s1q s2q chq).aggregate_rankings,
      e.model ∈ ((generate_zettels_deliberation content system_prompt cms chm uc rt ct
        s1q s2q chq).label_to_model).map Prod.snd) := by
  obtain ⟨h1, h2, h3, h4, _, _⟩ := delib_fields content system_prompt cms chm uc rt ct
    s1q s2q chq h
  refine ⟨?_, ?_, ?_⟩
  · rw [h3, labelToModelOf_eq _ hb]
  · intro p hp
    exact responsesTextOf_block_infix _ p hp
  · intro e he
    rw [h4] at he
    rw [h3]
    exact calculate_aggregate_model_mem _ _ e he

theorem labels_cover_all_stage1_witness :
    delibPartial.label_to_model =
      ((labelChars (delibStage1 s1qPartial "c".data "sys".data
          ["m1".data, "m2".data] none).length).zip
        (delibStage1 s1qPartial "c".data "sys".data ["m1".data, "m2".data] none)).map
          (fun p => (labelName p.1, p.2.model)) :=
  (labels_cover_all_stage1 "c".data "sys".data ["m1".data, "m2".data] "ch".data
    none [] [] s1qPartial qNone chqNone (by decide) (by decide)).1

/-- C3 counterexample: the single council model *succeeds* in stage 1 but
its text parses into no notes; the deliberation nevertheless returns the
failure record, refuting "if at least one model succeeds, stage 2 and
stage 3 are run". -/
theorem success_without_notes_still_fails :
    s1qHello "m1".data (stage1Messages "c".data "sys".data none) =
      some ⟨"hello".data, none⟩ ∧
    delibHello.stage1 = [⟨"m1".data, [], "hello".data⟩] ∧
    delibHello.stage2 = [] ∧ delibHello.label_to_model = [] ∧
    delibHello.aggregate_rankings = [] ∧ delibHello.stage3_raw = errAllFailed := by
  refine ⟨rfl, ?_, ?_, ?_, ?_, ?_⟩ <;> decide

/-- C3 corrected/amended: the explicit failure result — empty stage-2 list,
empty label map, empty aggregate rankings, reason text "all models failed
to generate notes", and no further model queries reflected in the result —
is returned exactly when NO stage-1 entry yields any parsed note (the
code's gate counts a successful model whose text parses to no notes as
failed); when at least one note parses, stage-2 results, the label map,
aggregate rankings and a stage-3 outcome are all produced. -/
theorem all_failed_gate (content system_prompt : Str) (cms : List Str) (chm : Str)
    (uc : Option Str) (rt : List RPiece) (ct : List CPiece)
    (s1q s2q : Str → List (Str × Str) → Option ModelResp)
    (chq : List (Str × Str) → Option ModelResp) :
    ((delibStage1 s1q content system_prompt cms uc).all
        (fun x => x.notes = []) = true →
      generate_zettels_deliberation content system_prompt cms chm uc rt ct s1q s2q chq =
        ⟨[], delibStage1 s1q content system_prompt cms uc, [], [], [], errAllFailed,
          cms, chm, genIdsOf (query_models_parallel s1q cms
            (stage1Messages content system_prompt uc))⟩) ∧
    (¬ ((delibStage1 s1q content system_prompt cms uc).all
        (fun x => x.notes = []) = true) →
      (generate_zettels_deliberation content system_prompt cms chm uc rt ct
          s1q s2q chq).stage2 = delibStage2 s1q s2q content system_prompt cms uc rt ∧
      (generate_zettels_deliberation content system_prompt cms chm uc rt ct
          s1q s2q chq).label_to_model =
        labelToModelOf (delibStage1 s1q content system_prompt cms uc) ∧
      (generate_zettels_deliberation content system_prompt cms chm uc rt ct
          s1q s2q chq).aggregate_rankings =
        calculate_aggregate_rankings (delibStage2 s1q s2q content system_prompt cms uc rt)
          (labelToModelOf (delibStage1 s1q content system_prompt cms uc)) ∧
      ((generate_zettels_deliberation content system_prompt cms chm uc rt ct
            s1q s2q chq).stage3_raw = errChairman ∨
        ∃ r, chq (delibChairmanMessages s1q s2q content system_prompt cms uc rt ct) =
            some r ∧
          (generate_zettels_deliberation content system_prompt cms chm uc rt ct
            s1q s2q chq).stage3_raw = r.content)) := by
  constructor
  · intro h
    exact delib_failure content system_prompt cms chm uc rt ct s1q s2q chq h
  · intro h
    obtain ⟨h1, h2, h3, h4, h5, h6⟩ := delib_fields content system_prompt cms chm uc
      rt ct s1q s2q chq h
    refine ⟨h2, h3, h4, ?_⟩
    rcases hc : chq (delibChairmanMessages s1q s2q content system_prompt cms uc rt ct)
      with _ | r
    · exact Or.inl (h5 hc).1
    · exact Or.inr ⟨r, rfl, h6 r hc⟩

theorem all_failed_gate_witness :
    generate_zettels_deliberation "c".data "sys".data ["m1".data] "ch".data none [] []
        s1qHello qNone chqNone =
      ⟨[], delibStage1 s1qHello "c".data "sys".data ["m1".data] none, [], [], [],
        errAllFailed, ["m1".data], "ch".data,
        genIdsOf (query_models_parallel s1qHello ["m1".data]
          (stage1Messages "c".data "sys".data none))⟩ :=
  (all_failed_gate "c".data "sys".data ["m1".data] "ch".data none [] []
    s1qHello qNone chqNone).1 (by decide)

/-- C5: when the chairman call fails the deliberation does not fail — every
pre-stage-3 field (stage1, stage2, label map, aggregate rankings) equals
the corresponding field of a run whose chairman succeeds with any response,
and equals the stage data computed before stage 3; only the stage-3 text is
the explicit error placeholder, with empty final notes. -/
theorem chairman_isolation (content system_prompt : Str) (cms : List Str) (chm : Str)
    (uc : Option Str) (rt : List RPiece) (ct : List CPiece)
    (s1q s2q : Str → List (Str × Str) → Option ModelResp) (r : ModelResp)
    (h : ¬ ((delibStage1 s1q content system_prompt cms uc).all
        (fun x => x.notes = []) = true)) :
    (generate_zettels_deliberation content system_prompt cms chm uc rt ct s1q s2q
        (fun _ => none)).stage1 =
      (generate_zettels_deliberation content system_prompt cms chm uc rt ct s1q s2q
        (fun _ => some r)).stage1 ∧
    (generate_zettels_deliberation content system_prompt cms chm uc rt ct s1q s2q
        (fun _ => none)).stage2 =
      (generate_zettels_deliberation content system_prompt cms chm uc rt ct s1q s2q
        (fun _ => some r)).stage2 ∧
    (generate_zettels_deliberation content system_prompt cms chm uc rt ct s1q s2q
        (fun _ => none)).label_to_model =
      (generate_zettels_deliberation content system_prompt cms chm uc rt ct s1q s2q
        (fun _ => some r)).label_to_model ∧
    (generate_zettels_deliberation content system_prompt cms chm uc rt ct s1q s2q
        (fun _ => none)).aggregate_rankings =
      (generate_zettels_deliberation content system_prompt cms chm uc rt ct s1q s2q
        (fun _ => some r)).aggregate_rankings ∧
    (generate_zettels_deliberation content system_prompt cms chm uc rt ct s1q s2q
        (fun _ => none)).stage1 = delibStage1 s1q content system_prompt cms uc ∧
    (generate_zettels_deliberation content system_prompt cms chm uc rt ct s1q s2q
        (fun _ => none)).stage2 = delibStage2 s1q s2q content system_prompt cms uc rt ∧
    (generate_zettels_deliberation content system_prompt cms chm uc rt ct s1q s2q
        (fun _ => none)).label_to_model =
      labelToModelOf (delibStage1 s1q content system_prompt cms uc) ∧
    (generate_zettels_deliberation content system_prompt cms chm uc rt ct s1q s2q
        (fun _ => none)).aggregate_rankings =
      calculate_aggregate_rankings (delibStage2 s1q s2q content system_prompt cms uc rt)
        (labelToModelOf (delibStage1 s1q content system_prompt cms uc)) ∧
    (generate_zettels_deliberation content system_prompt cms chm uc rt ct s1q s2q
        (fun _ => none)).stage3_raw = errChairman ∧
    (generate_zettels_deliberation content system_prompt cms chm uc rt ct s1q s2q
        (fun _ => none)).notes = [] := by
  obtain ⟨n1, n2, n3, n4, n5, _⟩ := delib_fields content system_prompt cms chm uc rt ct
    s1q s2q (fun _ => none) h
  obtain ⟨s1, s2, s3, s4, _, _⟩ := delib_fields content system_prompt cms chm uc rt ct
    s1q s2q (fun _ => some r) h
  exact ⟨n1.trans s1.symm, n2.trans s2.symm, n3.trans s3.symm, n4.trans s4.symm,
    n1, n2, n3, n4, (n5 rfl).1, (n5 rfl).2⟩

theorem chairman_isolation_witness :
    (generate_zettels_deliberation "c".data "sys".data ["m1".data, "m2".data] "ch".data
        none [] [] s1qPartial qNone (fun _ => none)).stage3_raw = errChairman ∧
    (generate_zettels_deliberation "c".data "sys".data ["m1".data, "m2".data] "ch".data
        none [] [] s1qPartial qNone (fun _ => none)).stage1 =
      (generate_zettels_deliberation "c".data "sys".data ["m1".data, "m2".data] "ch".data
        none [] [] s1qPartial qNone
          (fun _ => some ⟨"x".data, none⟩)).stage1 := by
  have H := chairman_isolation "c".data "sys".data ["m1".data, "m2".data] "ch".data
    none [] [] s1qPartial qNone ⟨"x".data, none⟩ (by decide)
  exact ⟨H.2.2.2.2.2.2.2.2.1, H.1⟩
